import Mathlib

/-!
Verification of the keyword-research clustering engine.

The repository contains two near-duplicate pipeline implementations:
* `part_000`/`part_001` (standalone functions plus the server pipeline), embedded
  below under the `Part0`/`Part1` name prefixes, and
* the `index.ts` class methods, embedded under the `Ts` prefix.

JavaScript numbers are modelled as rationals (`ℚ`); `NaN` and `undefined` are
modelled explicitly (`JNum`, `JVal`) at the raw-input boundary where the code
checks for them, and are absent from the typed `KeywordData` records (the
TypeScript interface declares those fields as `number`).  `Math.round` is
round-half-up, as in JavaScript.  String operations are modelled on ASCII
(`toLowerCase`/`toUpperCase` act on `A`-`Z`/`a`-`z` only).

The rational-arithmetic primitives are restored to their default reducibility
so that concrete runs of the embedded functions can be checked by `decide`.
-/

set_option allowUnsafeReducibility true

attribute [local semireducible] Rat.add Rat.mul Rat.sub Rat.inv Rat.div Rat.neg
  Rat.ofScientific

/-- ASCII lower-casing of one character, modelling the effect of JavaScript
`toLowerCase` on ASCII input. -/
def lowChar (c : Char) : Char :=
  if 65 ≤ c.toNat ∧ c.toNat ≤ 90 then Char.ofNat (c.toNat + 32) else c

/-- ASCII lower-casing of a string. -/
def lowStr (s : String) : String := String.mk (s.data.map lowChar)

/-- ASCII upper-casing of one character. -/
def upChar (c : Char) : Char :=
  if 97 ≤ c.toNat ∧ c.toNat ≤ 122 then Char.ofNat (c.toNat - 32) else c

/-- ASCII upper-casing of a string. -/
def upStr (s : String) : String := String.mk (s.data.map upChar)

/-- Split a character list at every occurrence of `sep`, keeping empty pieces,
exactly like JavaScript `String.prototype.split` with a one-character
separator. -/
def splitCharsOn (sep : Char) : List Char → List (List Char)
  | [] => [[]]
  | c :: cs =>
    match splitCharsOn sep cs with
    | [] => [[]]
    | w :: ws => if c = sep then [] :: w :: ws else (c :: w) :: ws

/-- JavaScript `s.split(sep)` for a one-character separator. -/
def splitStr (s : String) (sep : Char) : List String :=
  (splitCharsOn sep s.data).map String.mk

/-- JavaScript `s.split(' ')`. -/
def splitSp (s : String) : List String := splitStr s ' '

/-- Whether the second list is a leading segment of the first argument order:
`leadMatch n h` holds when `n` occurs at the very start of `h`. -/
def leadMatch : List Char → List Char → Bool
  | [], _ => true
  | _ :: _, [] => false
  | a :: as, b :: bs => a == b && leadMatch as bs

/-- Whether `n` occurs contiguously anywhere inside `h`. -/
def hasSub : List Char → List Char → Bool
  | [], n => n.isEmpty
  | l@(_ :: t), n => leadMatch n l || hasSub t n

/-- JavaScript `hay.includes(sub)`. -/
def strIncludes (hay sub : String) : Bool := hasSub hay.data sub.data

/-- Remove the first contiguous occurrence of `pat` from a character list,
leaving the list unchanged when `pat` does not occur. -/
def removeFirstAux (pat : List Char) : List Char → List Char
  | [] => []
  | c :: cs => if leadMatch pat (c :: cs) then (c :: cs).drop pat.length
               else c :: removeFirstAux pat cs

/-- JavaScript `s.replace(pat, '')` for a plain-string pattern: removes the
first occurrence only. -/
def jsReplaceOnce (s pat : String) : String := String.mk (removeFirstAux pat.data s.data)

/-- JavaScript `Math.round`: round half toward positive infinity. -/
def jround (q : ℚ) : ℤ := ⌊q + 1/2⌋

/-- JavaScript `a || b` on two numbers (`0` is falsy, everything else truthy;
`NaN` cannot occur here because both arguments are rationals). -/
def jsOrQ (a b : ℚ) : ℚ := if a = 0 then b else a

/-- JavaScript `s || d` on a possibly-missing string (`undefined` and the empty
string are falsy). -/
def jsOrS (s : Option String) (d : String) : String :=
  match s with
  | none => d
  | some t => if t = "" then d else t

/-- Deduplication worker: keep the first occurrence of every element, skipping
elements already recorded in `seen`. -/
def dedupSeen : List String → List String → List String
  | [], _ => []
  | x :: xs, seen => if x ∈ seen then dedupSeen xs seen else x :: dedupSeen xs (x :: seen)

/-- JavaScript `[...new Set(l)]`: deduplicate keeping first occurrences in
order. -/
def dedupJS (l : List String) : List String := dedupSeen l []

/-- A raw JavaScript numeric field: missing (`undefined`), `NaN`, or an actual
number (modelled as a rational). -/
inductive JNum where
  | undef : JNum
  | nan : JNum
  | num : ℚ → JNum
deriving DecidableEq, Repr

/-- JavaScript `x || d` for a numeric field `x` and a number literal `d`:
`undefined`, `NaN` and `0` are falsy and give `d`. -/
def JNum.orQ : JNum → ℚ → ℚ
  | JNum.num q, d => if q = 0 then d else q
  | _, d => d

/-- A raw JavaScript field that may also hold a string, used for the
`competition` field which the DataForSEO API may deliver as a label. -/
inductive JVal where
  | undef : JVal
  | nan : JVal
  | num : ℚ → JVal
  | str : String → JVal
deriving DecidableEq, Repr

/-- JavaScript truthiness of a `JVal`. -/
def JVal.truthy : JVal → Bool
  | JVal.num q => !(q == 0)
  | JVal.str s => !(s == "")
  | _ => false

/-- A raw keyword-metrics record as the commercial scorer and the metrics
difficulty estimator receive it, with numeric `competition` (the `part_001`
pipeline converts the label to a number before calling the `part_000` scorer,
and the stored `KeywordData` records passed to the estimator are typed
numeric). -/
structure RawRecord where
  keyword : Option String
  search_volume : JNum
  cpc : JNum
  competition : JNum
  competition_level : Option String
deriving DecidableEq, Repr

/-- A raw keyword-metrics record as the `index.ts` commercial scorer receives
it: `competition` may still be a categorical string label. -/
structure RawRecordTs where
  keyword : Option String
  search_volume : JNum
  cpc : JNum
  competition : JVal
  competition_level : Option String
deriving DecidableEq, Repr

/-- One observed ranking page, as stored on a keyword record
(`serp_urls` entries). -/
structure SerpUrl where
  url : String
  title : String
  domain : String
  position : ℚ
deriving DecidableEq, Repr

/-- A processed keyword record (the TypeScript `KeywordData` interface): all
metric fields are typed `number` there, hence plain rationals here. -/
structure KeywordData where
  keyword : String
  search_volume : ℚ
  cpc : ℚ
  competition : ℚ
  competition_level : String
  keyword_difficulty : ℚ
  serp_urls : List SerpUrl
  commercial_score : ℚ
  is_seed : Bool
deriving DecidableEq, Repr

/-- A keyword cluster (the TypeScript `KeywordCluster` interface). -/
structure KeywordCluster where
  cluster_id : ℕ
  main_keyword : String
  theme : String
  keywords : List KeywordData
  total_search_volume : ℚ
  avg_cpc : ℚ
  avg_difficulty : ℚ
  total_commercial_score : ℚ
  competitor_domains : List String
deriving DecidableEq, Repr

/-- One organic SERP result as passed to `calculateDifficulty`; the function
only reads the `url` field of each item. -/
structure OrganicResult where
  url : String
deriving DecidableEq, Repr

/-- One row of the competitor frequency table. -/
structure CompetitorFreq where
  domain : String
  frequency : ℕ
deriving DecidableEq, Repr

/-- One action-plan step.  The `description` holds the datum the template
interpolates (a main keyword, a theme, or a domain); the fixed surrounding
prose of the source template is omitted. -/
structure ActionStep where
  title : String
  description : String
  category : String
deriving DecidableEq, Repr

/-- The numeric contents of the report summary cards, modelled before their
string formatting (`toString`/`toLocaleString` in the source). -/
structure SummaryNums where
  totalKeywords : ℕ
  totalVolume : ℚ
  avgCPC : ℚ
  avgDifficulty : ℚ
  topCompetitor : String
deriving DecidableEq, Repr

/-- The final analysis report of the `part_000` engine. -/
structure AnalysisReport where
  summary : SummaryNums
  quickWins : List KeywordCluster
  highValueTargets : List KeywordCluster
  topKeywordClusters : List KeywordCluster
  mainCompetitors : List CompetitorFreq
  actionPlan : List ActionStep
  rawData : List KeywordCluster
deriving DecidableEq, Repr

/-- Sort key used on keyword records: descending commercial score.  JavaScript
`Array.prototype.sort` is stable, and a stable sort is extensionally unique,
so the stable `insertionSort` models it exactly. -/
def recordGe (a b : KeywordData) : Prop :=
  b.commercial_score ≤ a.commercial_score

instance : DecidableRel recordGe :=
  fun a b => inferInstanceAs (Decidable (b.commercial_score ≤ a.commercial_score))

instance : IsTotal KeywordData recordGe := ⟨fun _ _ => le_total _ _⟩

instance : IsTrans KeywordData recordGe := ⟨fun _ _ _ h h2 => le_trans h2 h⟩

/-- Sort key used on clusters: descending total commercial score. -/
def clusterGe (a b : KeywordCluster) : Prop :=
  b.total_commercial_score ≤ a.total_commercial_score

instance : DecidableRel clusterGe :=
  fun a b => inferInstanceAs (Decidable (b.total_commercial_score ≤ a.total_commercial_score))

instance : IsTotal KeywordCluster clusterGe := ⟨fun _ _ => le_total _ _⟩

instance : IsTrans KeywordCluster clusterGe := ⟨fun _ _ _ h h2 => le_trans h2 h⟩

/-- `keywords.sort((a, b) => (b.commercial_score || 0) - (a.commercial_score || 0))`:
stable descending sort by commercial score (`x || 0` is the identity on
rationals up to the comparator sign, since it only replaces `0` by `0`). -/
def sortByScore (l : List KeywordData) : List KeywordData :=
  List.insertionSort recordGe l

/-- `clusters.sort((a, b) => b.total_commercial_score - a.total_commercial_score)`. -/
def sortClusters (l : List KeywordCluster) : List KeywordCluster :=
  List.insertionSort clusterGe l

/-- `extractDomain` from `part_000`: hostname extraction.  The `try` branch
(`new URL(url).hostname`) and the `catch` branch (`url.split('/')[2]`) agree on
the `scheme://host/path` inputs this model covers, so the split-based branch is
the embedded definition; both strip one leading `www.`. -/
def extractDomain (url : String) : String :=
  if url = "" then ""
  else
    let parts := splitStr url '/'
    if 3 ≤ parts.length then jsReplaceOnce (parts.getD 2 "") "www." else ""

/-- The fixed high-authority domain list of the `part_000`
`calculateDifficulty`. -/
def Part0.highAuthority : List String :=
  ["wikipedia.org", "amazon.com", "youtube.com", "linkedin.com"]

/-- `calculateDifficulty` from `part_000`: weighted authority score of the top
10 ranking pages, 35 per high-authority domain and 15 otherwise, weight
`(10 - index) / 10`, capped at 100 after rounding; empty input yields 0. -/
def Part0.calculateDifficulty (organicResults : List OrganicResult) : ℚ :=
  if organicResults.length = 0 then 0
  else
    let difficulty : ℚ :=
      ((organicResults.take 10).enum).foldl
        (fun d p =>
          let domain := extractDomain p.2.url
          let weight : ℚ := ((10 : ℚ) - (p.1 : ℚ)) / 10
          let score : ℚ :=
            if Part0.highAuthority.any (fun hd => strIncludes domain hd) then 35 else 15
          d + score * weight)
        0
    min 100 ((jround difficulty : ℤ) : ℚ)

/-- `estimateDifficultyFromMetrics` from `part_000` (applied to stored
`KeywordData` records, whose fields are typed numeric). -/
def Part0.estimateDifficultyFromMetrics (data : KeywordData) : ℚ :=
  let level := upStr data.competition_level
  let base : ℚ := if level = "HIGH" then 70 else if level = "MEDIUM" then 45 else 25
  let d1 : ℚ := base + (if data.search_volume > 100000 then 15
                        else if data.search_volume > 10000 then 10 else 0)
  let d2 : ℚ := d1 + (if data.cpc > 5 then 10 else if data.cpc > 2 then 5 else 0)
  min 100 (max 15 d2)

/-- The difficulty assignment of the `part_001` pipeline:
`calculateDifficulty(organicResults) || estimateDifficultyFromMetrics(keywordData)`. -/
def Part1.assignDifficulty (organicResults : List OrganicResult) (kd : KeywordData) : ℚ :=
  jsOrQ (Part0.calculateDifficulty organicResults) (Part0.estimateDifficultyFromMetrics kd)

/-- The `volume` extraction of the `part_000` commercial scorer:
`keywordData.search_volume || 100`. -/
def Part0.volumeOf (kd : RawRecord) : ℚ := kd.search_volume.orQ 100

/-- The `cpc` extraction of the `part_000` commercial scorer:
`keywordData.cpc || 0.5`. -/
def Part0.cpcOf (kd : RawRecord) : ℚ := kd.cpc.orQ (1/2)

/-- The `competition` extraction of the `part_000` commercial scorer:
`keywordData.competition || 0.3`. -/
def Part0.compOf (kd : RawRecord) : ℚ := kd.competition.orQ (3/10)

/-- The intent multiplier of the `part_000` commercial scorer. -/
def Part0.multiplierOf (keyword : String) : ℚ :=
  if strIncludes keyword "buy" || strIncludes keyword "purchase" then 5/2
  else if strIncludes keyword "best" || strIncludes keyword "review" then 2
  else if strIncludes keyword "price" || strIncludes keyword "cost" then 9/5
  else if strIncludes keyword "how to" then 4/5
  else 1

/-- `calculateCommercialScore` from `part_000`. -/
def Part0.calculateCommercialScore (kd : RawRecord) : ℚ :=
  let volume := Part0.volumeOf kd
  let cpc := Part0.cpcOf kd
  let competition := Part0.compOf kd
  let keyword := lowStr (jsOrS kd.keyword "")
  let multiplier := Part0.multiplierOf keyword
  let calculation := volume * max (1/10) cpc * multiplier * (1 + competition)
  max 10 ((jround calculation : ℤ) : ℚ)

/-- The stop-word list of the `part_000` main-term heuristic. -/
def Part0.clusterStopWords : List String :=
  ["the", "a", "an", "and", "or", "but", "in", "on", "at", "to", "for", "of",
   "with", "by", "is", "are", "was", "were", "be", "been", "being", "have",
   "has", "had", "do", "does", "did", "will", "would", "could", "should",
   "may", "might", "must", "can", "best", "top", "how", "what", "when",
   "where", "why"]

/-- `findMainTerm` from `part_000`: the longest word of length at least 3 that
is not a stop-word (stable sort breaks ties by first occurrence), else the
first word. -/
def Part0.findMainTerm (keyword : String) : String :=
  let words := splitSp (lowStr keyword)
  let contentWords :=
    words.filter (fun word => decide (word ∉ Part0.clusterStopWords ∧ 2 < word.length))
  match List.insertionSort (fun a b => b.length ≤ a.length) contentWords with
  | w :: _ => w
  | [] => words.headD ""

/-- The main term as the specification describes it: stop-words removed, but
without the source's additional `word.length > 2` requirement.  Kept for
comparison with `Part0.findMainTerm`. -/
def specMainTerm (keyword : String) : String :=
  let words := splitSp (lowStr keyword)
  let contentWords := words.filter (fun word => decide (word ∉ Part0.clusterStopWords))
  match List.insertionSort (fun a b => b.length ≤ a.length) contentWords with
  | w :: _ => w
  | [] => words.headD ""

/-- `calculateKeywordSimilarity` from `part_000`: Jaccard index of the two
keywords' word sets. -/
def Part0.calculateKeywordSimilarity (keyword1 keyword2 : String) : ℚ :=
  let words1 := (splitSp (lowStr keyword1)).toFinset
  let words2 := (splitSp (lowStr keyword2)).toFinset
  ((words1 ∩ words2).card : ℚ) / ((words1 ∪ words2).card : ℚ)

/-- `identifyTheme` from `part_000`. -/
def Part0.identifyTheme (keyword : String) : String :=
  let kw := lowStr keyword
  if strIncludes kw "buy" || strIncludes kw "purchase" then "💰 Purchase Intent"
  else if strIncludes kw "best" || strIncludes kw "review" then "🔍 Research & Comparison"
  else if strIncludes kw "how to" || strIncludes kw "guide" then "📚 Educational"
  else if strIncludes kw "price" || strIncludes kw "cost" then "💲 Price Research"
  else "🎯 General"

/-- One step of the inner merge scan of the `part_000` `createClusters`: skip
records already processed or equal to the seed keyword, otherwise merge when
the Jaccard similarity exceeds 0.3 or the other keyword contains the main
term. -/
def Part0.mergeStep (k : KeywordData) (mainTerm : String)
    (st : List KeywordData × List String) (otherKeyword : KeywordData) :
    List KeywordData × List String :=
  if otherKeyword.keyword ∈ st.2 ∨ otherKeyword.keyword = k.keyword then st
  else
    let similarity := Part0.calculateKeywordSimilarity k.keyword otherKeyword.keyword
    let hasMainTerm := strIncludes (lowStr otherKeyword.keyword) mainTerm
    if similarity > 3/10 ∨ hasMainTerm then
      (st.1 ++ [otherKeyword], otherKeyword.keyword :: st.2)
    else st

/-- The merge condition of the inner scan, relative to the processed set at the
start of the scan. -/
def Part0.mergeCond (k : KeywordData) (mainTerm : String) (proc : List String)
    (o : KeywordData) : Bool :=
  decide (o.keyword ∉ proc) && decide (¬o.keyword = k.keyword) &&
    (decide (Part0.calculateKeywordSimilarity k.keyword o.keyword > 3/10) ||
      strIncludes (lowStr o.keyword) mainTerm)

/-- Cluster aggregation of the `part_000` `createClusters`: totals by left
folds (JavaScript `reduce`), averages as sum over length, competitor domains
deduplicated in first-occurrence order. -/
def Part0.buildCluster (acc : List KeywordCluster) (k : KeywordData)
    (relatedKeywords : List KeywordData) : KeywordCluster :=
  { cluster_id := acc.length + 1
    main_keyword := k.keyword
    theme := Part0.identifyTheme k.keyword
    keywords := relatedKeywords
    total_search_volume := relatedKeywords.foldl (fun sum kw => sum + kw.search_volume) 0
    avg_cpc := (relatedKeywords.foldl (fun sum kw => sum + kw.cpc) 0) /
      (relatedKeywords.length : ℚ)
    avg_difficulty := (relatedKeywords.foldl (fun sum kw => sum + kw.keyword_difficulty) 0) /
      (relatedKeywords.length : ℚ)
    total_commercial_score :=
      relatedKeywords.foldl (fun sum kw => sum + kw.commercial_score) 0
    competitor_domains :=
      dedupJS (relatedKeywords.flatMap
        (fun kw => (kw.serp_urls.map (fun u => u.domain)).filter (fun d => !(d == "")))) }

/-- The outer loop of the `part_000` `createClusters`: iterate the sorted
records, scan the whole sorted array for related keywords, and append one
cluster per unprocessed seed. -/
def Part0.createClustersGo (all : List KeywordData) :
    List KeywordData → List String → List KeywordCluster → List KeywordCluster
  | [], _, acc => acc
  | k :: rest, proc, acc =>
    if k.keyword ∈ proc then Part0.createClustersGo all rest proc acc
    else
      let mainTerm := Part0.findMainTerm k.keyword
      let st := all.foldl (Part0.mergeStep k mainTerm) ([k], proc)
      Part0.createClustersGo all rest (k.keyword :: st.2)
        (acc ++ [Part0.buildCluster acc k st.1])

/-- `createClusters` from `part_000`. -/
def Part0.createClusters (keywords : List KeywordData) : List KeywordCluster :=
  let sorted := sortByScore keywords
  sortClusters (Part0.createClustersGo sorted sorted [] [])

/-- The quick-win filter of the `part_000` `generateReport`. -/
def Part0.quickWinFilter (c : KeywordCluster) : Bool :=
  decide (c.avg_difficulty < 40) && decide (c.total_search_volume > 50)

/-- The high-value filter of the `part_000` `generateReport`. -/
def Part0.highValueFilter (c : KeywordCluster) : Bool :=
  decide (c.total_commercial_score > 1000) && decide (c.avg_difficulty < 65)

/-- The competitor frequency table of the `part_000` `generateReport`: count
occurrences per domain (JavaScript object keys keep first-insertion order for
these dotted domain strings), sort by frequency descending (stable), keep the
top 10. -/
def Part0.mainCompetitorsOf (clusters : List KeywordCluster) : List CompetitorFreq :=
  let allCompetitorDomains := clusters.flatMap (fun c => c.competitor_domains)
  let entries := (dedupJS allCompetitorDomains).map
    (fun d => CompetitorFreq.mk d (allCompetitorDomains.count d))
  (List.insertionSort (fun a b => b.frequency ≤ a.frequency) entries).take 10

/-- `generateActionPlan` from `part_000`: up to four templated steps, each
present only when its trigger data is non-empty. -/
def Part0.generateActionPlan (clusters quickWins highValue : List KeywordCluster)
    (competitors : List CompetitorFreq) : List ActionStep :=
  (match quickWins with
   | c :: _ => [ActionStep.mk "Target Quick Win Keywords" c.main_keyword "Quick Wins"]
   | [] => []) ++
  (match highValue with
   | c :: _ => [ActionStep.mk "Pursue High-Value Targets" c.main_keyword "High Value"]
   | [] => []) ++
  (match clusters with
   | c :: _ => [ActionStep.mk "Build Thematic Authority" c.theme "Content"]
   | [] => []) ++
  (match competitors with
   | c :: _ => [ActionStep.mk "Analyze Top Competitors" c.domain "Competitors"]
   | [] => [])

/-- `generateReport` from `part_000`. -/
def Part0.generateReport (_url _businessType : String)
    (clusters : List KeywordCluster) : AnalysisReport :=
  let totalVolume : ℚ := clusters.foldl (fun sum c => sum + c.total_search_volume) 0
  let totalKeywords : ℕ := clusters.foldl (fun sum c => sum + c.keywords.length) 0
  let avgCPC : ℚ :=
    if 0 < clusters.length then
      (clusters.foldl (fun sum c => sum + c.avg_cpc) 0) / (clusters.length : ℚ)
    else 0
  let avgDifficulty : ℚ :=
    if 0 < clusters.length then
      (clusters.foldl (fun sum c => sum + c.avg_difficulty) 0) / (clusters.length : ℚ)
    else 0
  let quickWins := (sortClusters (clusters.filter Part0.quickWinFilter)).take 5
  let highValueTargets := (sortClusters (clusters.filter Part0.highValueFilter)).take 5
  let mainCompetitors := Part0.mainCompetitorsOf clusters
  let topCompetitor :=
    match mainCompetitors with
    | c :: _ => c.domain
    | [] => "N/A"
  { summary := SummaryNums.mk totalKeywords totalVolume avgCPC avgDifficulty topCompetitor
    quickWins := quickWins
    highValueTargets := highValueTargets
    topKeywordClusters := clusters.take 25
    mainCompetitors := mainCompetitors
    actionPlan := Part0.generateActionPlan clusters quickWins highValueTargets mainCompetitors
    rawData := clusters }

/-- The record-to-report tail of the `part_001` pipeline: filter out records
with volume of at most 20, cluster, and assemble the report. -/
def Part1.analyzePipeline (url businessType : String)
    (records : List KeywordData) : AnalysisReport :=
  let keywordsArray := records.filter (fun kw => decide (kw.search_volume > 20))
  let clusters := Part0.createClusters keywordsArray
  Part0.generateReport url businessType clusters

/-- The competition normalization of the `index.ts` commercial scorer: apply
`|| 0`, then convert a non-numeric value through the uppercased competition
level (HIGH 0.8, MEDIUM 0.5, LOW 0.2, default 0.3). -/
def Ts.normalizeCompetition (competition : JVal) (competitionLevel : String) : ℚ :=
  let c := if competition.truthy then competition else JVal.num 0
  match c with
  | JVal.num q => q
  | _ =>
    match upStr competitionLevel with
    | "HIGH" => 8/10
    | "MEDIUM" => 1/2
    | "LOW" => 2/10
    | _ => 3/10

/-- The intent multiplier of the `index.ts` commercial scorer. -/
def Ts.intentMultiplierOf (keyword : String) : ℚ :=
  if strIncludes keyword "buy" || strIncludes keyword "purchase" ||
      strIncludes keyword "order" then 5/2
  else if strIncludes keyword "best" || strIncludes keyword "top" ||
      strIncludes keyword "review" then 2
  else if strIncludes keyword "price" || strIncludes keyword "cost" ||
      strIncludes keyword "cheap" then 9/5
  else if strIncludes keyword "hire" || strIncludes keyword "service" ||
      strIncludes keyword "company" then 8/5
  else if strIncludes keyword "how to" || strIncludes keyword "what is" then 4/5
  else 1

/-- `calculateCommercialScore` from `index.ts`.  The `isNaN` re-checks on the
`||`-defaulted values are identities in this model (the defaulted values are
rationals), and the final `isNaN(score)` guard likewise never fires. -/
def Ts.calculateCommercialScore (keywordData : RawRecordTs) : ℚ :=
  let volume := keywordData.search_volume.orQ 0
  let cpc := keywordData.cpc.orQ 0
  let competitionLevel := jsOrS keywordData.competition_level "unknown"
  let competition := Ts.normalizeCompetition keywordData.competition competitionLevel
  let keyword := lowStr (jsOrS keywordData.keyword "")
  let intentMultiplier := Ts.intentMultiplierOf keyword
  let validVolume := volume
  let validCpc := cpc
  let validCompetition := competition
  let score : ℤ :=
    jround (validVolume * max (1/10) validCpc * intentMultiplier * (1 + validCompetition))
  max 10 (score : ℚ)

/-- `estimateDifficultyFromMetrics` from `index.ts` (numeric or absent
competition; a string label in that field would flow through JavaScript
number coercion, which is outside this model and unused by the claims). -/
def Ts.estimateDifficultyFromMetrics (keywordData : RawRecord) : ℚ :=
  let search_volume := keywordData.search_volume.orQ 0
  let cpc := keywordData.cpc.orQ 0
  let competition := keywordData.competition.orQ 0
  let competition_level := jsOrS keywordData.competition_level "unknown"
  let base : ℚ :=
    if upStr competition_level = "HIGH" then 70
    else if upStr competition_level = "MEDIUM" then 45
    else if upStr competition_level = "LOW" then 25
    else max 20 (competition * 100)
  let d1 : ℚ := base + (if search_volume > 100000 then 15
                        else if search_volume > 10000 then 10
                        else if search_volume > 1000 then 5 else 0)
  let d2 : ℚ := d1 + (if cpc > 5 then 10 else if cpc > 2 then 5
                      else if cpc > 1 then 3 else 0)
  min 100 (max 15 ((jround d2 : ℤ) : ℚ))

/-- `identifyTheme` from `index.ts`. -/
def Ts.identifyTheme (keyword : String) : String :=
  let kw := lowStr keyword
  if strIncludes kw "buy" || strIncludes kw "purchase" then "💰 Purchase Intent"
  else if strIncludes kw "best" || strIncludes kw "top" || strIncludes kw "review" then
    "🔍 Research & Comparison"
  else if strIncludes kw "how to" || strIncludes kw "guide" then "📚 Educational"
  else if strIncludes kw "price" || strIncludes kw "cost" then "💲 Price Research"
  else "🎯 General"

/-- The fresh single-member cluster of the `index.ts` `createClusters` (the
`isNaN` guards are identities on rational fields). -/
def Ts.initCluster (acc : List KeywordCluster) (k : KeywordData) : KeywordCluster :=
  { cluster_id := acc.length + 1
    main_keyword := k.keyword
    theme := Ts.identifyTheme k.keyword
    keywords := [k]
    total_search_volume := k.search_volume
    avg_cpc := k.cpc
    avg_difficulty := k.keyword_difficulty
    total_commercial_score := k.commercial_score
    competitor_domains :=
      dedupJS ((k.serp_urls.map (fun u => u.domain)).filter (fun d => !(d == ""))) }

/-- Merging one record into a growing `index.ts` cluster: push the record,
add its volume and score, average the cpc and difficulty pairwise with the
running value, and union the competitor domains. -/
def Ts.mergeInto (c : KeywordCluster) (other : KeywordData) : KeywordCluster :=
  { c with
    keywords := c.keywords ++ [other]
    total_search_volume := c.total_search_volume + other.search_volume
    avg_cpc := (c.avg_cpc + other.cpc) / 2
    avg_difficulty := (c.avg_difficulty + other.keyword_difficulty) / 2
    total_commercial_score := c.total_commercial_score + other.commercial_score
    competitor_domains :=
      dedupJS (c.competitor_domains ++
        (other.serp_urls.map (fun u => u.domain)).filter (fun d => !(d == ""))) }

/-- One step of the inner merge scan of the `index.ts` `createClusters`:
merge when the shared words of length above 3 reach half the shorter keyword's
word count and the cluster still has fewer than 10 members. -/
def Ts.clusterStep (k : KeywordData) (mainWords : List String)
    (st : KeywordCluster × List String) (otherKeyword : KeywordData) :
    KeywordCluster × List String :=
  if otherKeyword.keyword ∈ st.2 ∨ otherKeyword.keyword = k.keyword then st
  else
    let otherWords := splitSp (lowStr otherKeyword.keyword)
    let commonWords :=
      mainWords.filter (fun word => otherWords.contains word && decide (3 < word.length))
    if ((min mainWords.length otherWords.length : ℕ) : ℚ) * (1/2) ≤ (commonWords.length : ℚ)
        ∧ st.1.keywords.length < 10 then
      (Ts.mergeInto st.1 otherKeyword, otherKeyword.keyword :: st.2)
    else st

/-- The outer loop of the `index.ts` `createClusters`. -/
def Ts.createClustersGo (all : List KeywordData) :
    List KeywordData → List String → List KeywordCluster → List KeywordCluster
  | [], _, acc => acc
  | k :: rest, proc, acc =>
    if k.keyword ∈ proc then Ts.createClustersGo all rest proc acc
    else
      let mainWords := splitSp (lowStr k.keyword)
      let st := all.foldl (Ts.clusterStep k mainWords) (Ts.initCluster acc k, proc)
      Ts.createClustersGo all rest (k.keyword :: st.2) (acc ++ [st.1])

/-- `createClusters` from `index.ts`: greedy clustering over the
score-sorted records, then keep only the top 15 clusters by total commercial
score. -/
def Ts.createClusters (keywords : List KeywordData) : List KeywordCluster :=
  let sortedKeywords := sortByScore keywords
  (sortClusters (Ts.createClustersGo sortedKeywords sortedKeywords [] [])).take 15

/-- A JavaScript `reduce((sum, x) => sum + f(x), init)` is `init` plus the sum
of the mapped values. -/
theorem foldl_add_map_sum {α : Type} (f : α → ℚ) :
    ∀ (l : List α) (init : ℚ), l.foldl (fun sum x => sum + f x) init = init + (l.map f).sum
  | [], init => by simp
  | x :: xs, init => by
    simp only [List.foldl_cons, List.map_cons, List.sum_cons]
    rw [foldl_add_map_sum f xs (init + f x)]
    ring

/-- The same statement for natural-number counts. -/
theorem foldl_add_map_sum_nat {α : Type} (f : α → ℕ) :
    ∀ (l : List α) (init : ℕ), l.foldl (fun sum x => sum + f x) init = init + (l.map f).sum
  | [], init => by simp
  | x :: xs, init => by
    simp only [List.foldl_cons, List.map_cons, List.sum_cons]
    rw [foldl_add_map_sum_nat f xs (init + f x)]
    omega

/-- The deduplication worker returns a duplicate-free list avoiding `seen`. -/
theorem dedupSeen_nodup :
    ∀ (l seen : List String), (dedupSeen l seen).Nodup ∧ ∀ x ∈ dedupSeen l seen, x ∉ seen
  | [], _ => by simp [dedupSeen]
  | x :: xs, seen => by
    by_cases hx : x ∈ seen
    · simpa [dedupSeen, hx] using dedupSeen_nodup xs seen
    · have ih := dedupSeen_nodup xs (x :: seen)
      simp only [dedupSeen]
      rw [if_neg hx]
      refine ⟨List.nodup_cons.mpr ⟨fun hmem => ?_, ih.1⟩, fun y hy => ?_⟩
      · exact absurd (List.mem_cons_self x seen) (ih.2 x hmem)
      · rcases List.mem_cons.mp hy with rfl | hy2
        · exact hx
        · have h3 := ih.2 y hy2
          simp only [List.mem_cons, not_or] at h3
          exact h3.2

/-- `[...new Set(l)]` has no duplicates. -/
theorem dedupJS_nodup (l : List String) : (dedupJS l).Nodup :=
  (dedupSeen_nodup l []).1

/-- The inner merge scan only appends to the related-keywords list. -/
theorem foldMerge_extends (k : KeywordData) (mt : String) :
    ∀ (L : List KeywordData) (st : List KeywordData × List String),
      ∃ t, (L.foldl (Part0.mergeStep k mt) st).1 = st.1 ++ t
  | [], st => ⟨[], by simp⟩
  | o :: L, st => by
    obtain ⟨t, ht⟩ := foldMerge_extends k mt L (Part0.mergeStep k mt st o)
    simp only [List.foldl_cons, ht]
    unfold Part0.mergeStep
    by_cases h1 : o.keyword ∈ st.2 ∨ o.keyword = k.keyword
    · exact ⟨t, by simp [h1]⟩
    · by_cases h2 : Part0.calculateKeywordSimilarity k.keyword o.keyword > 3/10 ∨
          strIncludes (lowStr o.keyword) mt
      · exact ⟨o :: t, by simp [h1, h2]⟩
      · exact ⟨t, by simp [h1, h2]⟩

/-- Characterization of the inner merge scan of the `part_000` cluster
builder: when the scanned list has pairwise-distinct keyword texts, the scan
appends exactly the records that are unprocessed at the start of the scan,
differ from the seed keyword, and satisfy the merge condition, and it marks
exactly those records processed. -/
theorem foldMerge_eq (k : KeywordData) (mt : String) :
    ∀ (L : List KeywordData) (rel : List KeywordData) (proc : List String),
      (L.map (fun x => x.keyword)).Nodup →
      L.foldl (Part0.mergeStep k mt) (rel, proc) =
        (rel ++ L.filter (Part0.mergeCond k mt proc),
         ((L.filter (Part0.mergeCond k mt proc)).map (fun x => x.keyword)).reverse ++ proc)
  | [], rel, proc, _ => by simp
  | o :: L, rel, proc, hnd => by
    have hnd' : (o.keyword :: L.map (fun x => x.keyword)).Nodup := by simpa using hnd
    have hnd0 := List.nodup_cons.mp hnd'
    have hnd2 : (L.map (fun x => x.keyword)).Nodup := hnd0.2
    have hkey : o.keyword ∉ L.map (fun x => x.keyword) := hnd0.1
    simp only [List.foldl_cons]
    by_cases h1 : o.keyword ∈ proc ∨ o.keyword = k.keyword
    · have hstep : Part0.mergeStep k mt (rel, proc) o = (rel, proc) := by
        unfold Part0.mergeStep
        rw [if_pos h1]
      have hcond : Part0.mergeCond k mt proc o = false := by
        unfold Part0.mergeCond
        rcases h1 with h | h
        · simp [h]
        · simp [h]
      rw [hstep, foldMerge_eq k mt L rel proc hnd2]
      simp [List.filter_cons, hcond]
    · push_neg at h1
      by_cases h2 : Part0.calculateKeywordSimilarity k.keyword o.keyword > 3/10 ∨
          (strIncludes (lowStr o.keyword) mt = true)
      · have hstep : Part0.mergeStep k mt (rel, proc) o =
            (rel ++ [o], o.keyword :: proc) := by
          unfold Part0.mergeStep
          rw [if_neg (by simp [h1.1, h1.2]), if_pos (by simpa using h2)]
        have hcond : Part0.mergeCond k mt proc o = true := by
          unfold Part0.mergeCond
          rcases h2 with h | h
          · simp [h1.1, h1.2, h]
          · simp [h1.1, h1.2, h]
        rw [hstep, foldMerge_eq k mt L (rel ++ [o]) (o.keyword :: proc) hnd2]
        have hfc : L.filter (Part0.mergeCond k mt (o.keyword :: proc)) =
            L.filter (Part0.mergeCond k mt proc) := by
          apply List.filter_congr
          intro x hx
          have hxo : ¬x.keyword = o.keyword := by
            intro he
            exact hkey (he ▸ List.mem_map_of_mem (fun y => y.keyword) hx)
          unfold Part0.mergeCond
          simp [List.mem_cons, hxo]
        rw [hfc]
        simp [List.filter_cons, hcond, List.append_assoc]
      · have hstep : Part0.mergeStep k mt (rel, proc) o = (rel, proc) := by
          unfold Part0.mergeStep
          rw [if_neg (by simp [h1.1, h1.2]), if_neg (by simpa using h2)]
        have hA : ¬Part0.calculateKeywordSimilarity k.keyword o.keyword > 3/10 :=
          fun h => h2 (Or.inl h)
        have hB : strIncludes (lowStr o.keyword) mt = false := by
          rcases Bool.eq_false_or_eq_true (strIncludes (lowStr o.keyword) mt) with h | h
          · exact absurd (Or.inr h) h2
          · exact h
        have hcond : Part0.mergeCond k mt proc o = false := by
          unfold Part0.mergeCond
          simp [h1.1, h1.2, hA, hB]
        rw [hstep, foldMerge_eq k mt L rel proc hnd2]
        simp [List.filter_cons, hcond]

/-- Splitting a filtered list along a second predicate, up to permutation. -/
theorem filter_decomp {α : Type} (p q : α → Bool) :
    ∀ l : List α,
      (l.filter p).Perm
        (l.filter (fun x => p x && q x) ++ l.filter (fun x => p x && !q x))
  | [] => by simp
  | x :: l => by
    rcases Bool.eq_false_or_eq_true (p x) with hp | hp
    · rcases Bool.eq_false_or_eq_true (q x) with hq | hq
      · simpa [List.filter_cons, hp, hq] using (filter_decomp p q l).cons x
      · simp only [List.filter_cons, hp, hq]
        simp only [Bool.and_true, Bool.and_false, Bool.not_false, Bool.not_true,
          if_true, if_false, Bool.and_self, reduceIte]
        exact ((filter_decomp p q l).cons x).trans List.perm_middle.symm
    · simpa [List.filter_cons, hp] using filter_decomp p q l

/-- In a list with pairwise-distinct keyword texts, filtering by one member's
keyword yields exactly that member. -/
theorem filter_key_eq :
    ∀ (l : List KeywordData), (l.map (fun x => x.keyword)).Nodup →
      ∀ k ∈ l, l.filter (fun x => decide (x.keyword = k.keyword)) = [k]
  | [], _, k, hk => absurd hk (List.not_mem_nil k)
  | a :: l, hnd, k, hk => by
    have hnd0 := List.nodup_cons.mp (by simpa using hnd :
      (a.keyword :: l.map (fun x => x.keyword)).Nodup)
    rcases List.mem_cons.mp hk with rfl | hk2
    · have hrest : l.filter (fun x => decide (x.keyword = k.keyword)) = [] := by
        rw [List.filter_eq_nil_iff]
        intro x hx
        simp only [decide_eq_true_eq]
        intro he
        exact hnd0.1 (he ▸ List.mem_map_of_mem (fun y => y.keyword) hx)
      simp [List.filter_cons, hrest]
    · have hne : ¬a.keyword = k.keyword := by
        intro he
        exact hnd0.1 (he ▸ List.mem_map_of_mem (fun y => y.keyword) hk2)
      simp only [List.filter_cons, decide_eq_true_eq, hne, if_false, reduceIte]
      exact filter_key_eq l hnd0.2 k hk2

/-- The processed-set invariant of the outer cluster loop: the members of the
produced clusters are exactly the accumulated members plus every record of
`all` that is unprocessed on entry, provided the pending list is the
not-yet-visited suffix of `all` and every visited record is processed. -/
theorem go_members (all : List KeywordData)
    (hall : (all.map (fun x => x.keyword)).Nodup) :
    ∀ (pending : List KeywordData) (proc : List String) (acc : List KeywordCluster),
      (∃ pre, all = pre ++ pending ∧ ∀ x ∈ pre, x.keyword ∈ proc) →
      ((Part0.createClustersGo all pending proc acc).flatMap (fun c => c.keywords)).Perm
        (acc.flatMap (fun c => c.keywords) ++
          all.filter (fun x => decide (x.keyword ∉ proc)))
  | [], proc, acc, hpre => by
    obtain ⟨pre, hpre1, hpre2⟩ := hpre
    have hfil : all.filter (fun x => decide (x.keyword ∉ proc)) = [] := by
      rw [List.filter_eq_nil_iff]
      intro x hx
      simp only [decide_eq_true_eq, not_not]
      exact hpre2 x (by simpa [hpre1] using hx)
    have hgo : Part0.createClustersGo all [] proc acc = acc := rfl
    rw [hgo, hfil, List.append_nil]
  | k :: rest, proc, acc, hpre => by
    obtain ⟨pre, hpre1, hpre2⟩ := hpre
    have hkall : k ∈ all := by
      rw [hpre1]; exact List.mem_append_right pre (List.mem_cons_self k rest)
    by_cases hk : k.keyword ∈ proc
    · rw [Part0.createClustersGo, if_pos hk]
      exact go_members all hall rest proc acc
        ⟨pre ++ [k], by rw [hpre1, List.append_assoc]; rfl,
          fun x hx => by
            rcases List.mem_append.mp hx with hx | hx
            · exact hpre2 x hx
            · rcases List.mem_singleton.mp hx with rfl
              exact hk⟩
    · rw [Part0.createClustersGo, if_neg hk]
      set mt := Part0.findMainTerm k.keyword with hmt
      have hfold := foldMerge_eq k mt all [k] proc hall
      set picked := all.filter (Part0.mergeCond k mt proc) with hpicked
      dsimp only
      rw [hfold]
      set proc3 := k.keyword :: ((picked.map (fun x => x.keyword)).reverse ++ proc)
        with hproc3
      have hproc3mem : ∀ s, s ∈ proc3 ↔
          s = k.keyword ∨ s ∈ picked.map (fun x => x.keyword) ∨ s ∈ proc := by
        intro s
        simp [hproc3, List.mem_cons, List.mem_append, List.mem_reverse]
      have hsub : ∀ s ∈ proc, s ∈ proc3 := fun s hs => (hproc3mem s).mpr (Or.inr (Or.inr hs))
      have ih := go_members all hall rest proc3
        (acc ++ [Part0.buildCluster acc k ([k] ++ picked)])
        ⟨pre ++ [k], by rw [hpre1, List.append_assoc]; rfl,
          fun x hx => by
            rcases List.mem_append.mp hx with hx | hx
            · exact hsub x.keyword (hpre2 x hx)
            · rcases List.mem_singleton.mp hx with rfl
              exact (hproc3mem x.keyword).mpr (Or.inl rfl)⟩
      refine ih.trans ?_
      have hacc : ((acc ++ [Part0.buildCluster acc k ([k] ++ picked)]).flatMap
          (fun c => c.keywords)) = acc.flatMap (fun c => c.keywords) ++ (k :: picked) := by
        simp [Part0.buildCluster]
      rw [hacc, List.append_assoc]
      refine List.Perm.append_left _ ?_
      -- remaining goal: (k :: picked) ++ filter (∉ proc3) ~ filter (∉ proc)
      have hdec := filter_decomp (fun x => decide (x.keyword ∉ proc))
        (fun x => decide (x.keyword ∈ proc3)) all
      have hA : all.filter (fun x => decide (x.keyword ∉ proc) && !decide (x.keyword ∈ proc3))
          = all.filter (fun x => decide (x.keyword ∉ proc3)) := by
        apply List.filter_congr
        intro x _
        by_cases h3 : x.keyword ∈ proc3
        · simp [h3]
        · have : x.keyword ∉ proc := fun hc => h3 (hsub _ hc)
          simp [h3, this]
      have hB : (all.filter (fun x => decide (x.keyword ∉ proc) &&
          decide (x.keyword ∈ proc3))).Perm (k :: picked) := by
        have hR : all.filter (fun x => decide (x.keyword ∉ proc) && decide (x.keyword ∈ proc3))
            = all.filter (fun x => decide (x.keyword = k.keyword) ||
                Part0.mergeCond k mt proc x) := by
          apply List.filter_congr
          intro x hx
          by_cases hxk : x.keyword = k.keyword
          · simp only [hxk]
            have h3 : k.keyword ∈ proc3 := (hproc3mem _).mpr (Or.inl rfl)
            simp [hk, h3]
          · by_cases hmc : Part0.mergeCond k mt proc x = true
            · have hxpicked : x ∈ picked := by
                rw [hpicked]; exact List.mem_filter.mpr ⟨hx, hmc⟩
              have h3 : x.keyword ∈ proc3 := (hproc3mem _).mpr
                (Or.inr (Or.inl (List.mem_map_of_mem (fun y => y.keyword) hxpicked)))
              have hnp : x.keyword ∉ proc := by
                have := hmc
                unfold Part0.mergeCond at this
                simp only [Bool.and_eq_true, decide_eq_true_eq] at this
                exact this.1.1
              simp [h3, hnp, hmc, hxk]
            · -- x is neither the seed nor merged: show both sides false
              have hnotpk : x.keyword ∉ picked.map (fun y => y.keyword) := by
                intro hpk
                obtain ⟨y, hy, hyx⟩ := List.mem_map.mp hpk
                have hyall : y ∈ all := List.mem_of_mem_filter (hpicked ▸ hy)
                have : y = x := List.inj_on_of_nodup_map hall hyall hx hyx
                subst this
                exact hmc (List.mem_filter.mp (hpicked ▸ hy)).2
              by_cases hnp : x.keyword ∈ proc
              · have h3 : x.keyword ∉ proc3 ∨ True := Or.inr trivial
                simp [hnp, hmc, hxk]
              · have h3 : x.keyword ∉ proc3 := by
                  rw [hproc3mem]
                  push_neg
                  exact ⟨hxk, hnotpk, hnp⟩
                simp [h3, hnp, hmc, hxk]
        rw [hR]
        have hdec2 := filter_decomp
          (fun x => decide (x.keyword = k.keyword) || Part0.mergeCond k mt proc x)
          (fun x => decide (x.keyword = k.keyword)) all
        have hq : all.filter (fun x => (decide (x.keyword = k.keyword) ||
            Part0.mergeCond k mt proc x) && decide (x.keyword = k.keyword))
            = all.filter (fun x => decide (x.keyword = k.keyword)) := by
          apply List.filter_congr
          intro x _
          by_cases hxk : x.keyword = k.keyword
          · simp [hxk]
          · simp [hxk]
        have hnq : all.filter (fun x => (decide (x.keyword = k.keyword) ||
            Part0.mergeCond k mt proc x) && !decide (x.keyword = k.keyword))
            = picked := by
          rw [hpicked]
          apply List.filter_congr
          intro x _
          by_cases hxk : x.keyword = k.keyword
          · have : Part0.mergeCond k mt proc x = false := by
              unfold Part0.mergeCond
              simp [hxk]
            simp [hxk, this]
          · simp [hxk]
        rw [hq, hnq] at hdec2
        rw [filter_key_eq all hall k hkall] at hdec2
        exact hdec2
      refine List.Perm.trans ?_ hdec.symm
      rw [← hA]
      exact hB.symm.append_right _

/-- The aggregate invariants of one cluster: exact totals, arithmetic-mean
averages, duplicate-free competitor domains, and non-emptiness. -/
def GoodCluster (c : KeywordCluster) : Prop :=
  c.total_search_volume = (c.keywords.map (fun k => k.search_volume)).sum ∧
  c.avg_cpc = (c.keywords.map (fun k => k.cpc)).sum / (c.keywords.length : ℚ) ∧
  c.avg_difficulty =
    (c.keywords.map (fun k => k.keyword_difficulty)).sum / (c.keywords.length : ℚ) ∧
  c.total_commercial_score = (c.keywords.map (fun k => k.commercial_score)).sum ∧
  c.competitor_domains.Nodup ∧
  c.keywords ≠ []

/-- Every cluster assembled by `buildCluster` from a non-empty member list
satisfies the aggregate invariants. -/
theorem buildCluster_good (acc : List KeywordCluster) (k : KeywordData)
    (rel : List KeywordData) (h : rel ≠ []) :
    GoodCluster (Part0.buildCluster acc k rel) := by
  unfold GoodCluster Part0.buildCluster
  refine ⟨?_, ?_, ?_, ?_, ?_, h⟩ <;>
    simp [foldl_add_map_sum, dedupJS_nodup]

/-- The outer cluster loop preserves the aggregate invariants. -/
theorem go_good (all : List KeywordData) :
    ∀ (pending : List KeywordData) (proc : List String) (acc : List KeywordCluster),
      (∀ c ∈ acc, GoodCluster c) →
      ∀ c ∈ Part0.createClustersGo all pending proc acc, GoodCluster c
  | [], _, acc, hacc => fun c hc => hacc c hc
  | k :: rest, proc, acc, hacc => by
    by_cases hk : k.keyword ∈ proc
    · rw [Part0.createClustersGo, if_pos hk]
      exact go_good all rest proc acc hacc
    · rw [Part0.createClustersGo, if_neg hk]
      dsimp only
      apply go_good all rest
      intro c hc
      rcases List.mem_append.mp hc with hc | hc
      · exact hacc c hc
      · rcases List.mem_singleton.mp hc with rfl
        apply buildCluster_good
        obtain ⟨t, ht⟩ :=
          foldMerge_extends k (Part0.findMainTerm k.keyword) all ([k], proc)
        rw [ht]
        simp

/-- The outer cluster loop keeps the accumulated cluster ids contiguous from
1. -/
theorem go_ids (all : List KeywordData) :
    ∀ (pending : List KeywordData) (proc : List String) (acc : List KeywordCluster),
      acc.map (fun c => c.cluster_id) = List.range' 1 acc.length →
      (Part0.createClustersGo all pending proc acc).map (fun c => c.cluster_id) =
        List.range' 1 (Part0.createClustersGo all pending proc acc).length
  | [], _, _, hacc => hacc
  | k :: rest, proc, acc, hacc => by
    by_cases hk : k.keyword ∈ proc
    · rw [Part0.createClustersGo, if_pos hk]
      exact go_ids all rest proc acc hacc
    · rw [Part0.createClustersGo, if_neg hk]
      dsimp only
      apply go_ids all rest
      simp only [List.map_append, List.length_append, hacc, List.map_cons, List.map_nil,
        List.length_cons, List.length_nil]
      rw [List.range'_concat]
      simp [Part0.buildCluster, Nat.add_comm]

/-- A concrete record whose keyword is "the go": its only non-stop word "go"
is two characters long, which separates the source's main-term rule from the
specification's. -/
def kwGo : KeywordData :=
  KeywordData.mk "the go" 100 1 0 "LOW" 20 [] 2 true

/-- A concrete record whose keyword contains the word "go". -/
def kwKart : KeywordData :=
  KeywordData.mk "go kart racing" 50 1 0 "LOW" 30 [] 1 false

/-- Two concrete records sharing the keyword text "alpha". -/
def kwDupA : KeywordData :=
  KeywordData.mk "alpha" 10 1 0 "LOW" 20 [] 5 true

/-- The second record with the duplicated keyword text. -/
def kwDupB : KeywordData :=
  KeywordData.mk "alpha" 7 1 0 "LOW" 20 [] 5 false

/-- C1 counterexample: for the record "the go", the specification's main term
is "go" (the longest word after stop-word removal), so "go kart racing"
(Jaccard 1/4, not above 0.3, but containing "go") should merge; the code's
main term is "the" (words of length at most 2 are also discarded, leaving
nothing, so the first word is taken), and the two keywords end up in separate
clusters. -/
theorem spec_c1_counterexample :
    ¬Part0.calculateKeywordSimilarity "the go" "go kart racing" > 3/10 ∧
    specMainTerm "the go" = "go" ∧
    strIncludes (lowStr "go kart racing") (specMainTerm "the go") = true ∧
    Part0.findMainTerm "the go" = "the" ∧
    (Part0.createClusters [kwGo, kwKart]).map
      (fun c => c.keywords.map (fun x => x.keyword)) =
      [["the go"], ["go kart racing"]] :=
  ⟨by decide, by decide, by decide, by decide, by decide⟩

/-- C1 (amended): during cluster formation for seed `k`, a scanned record is
merged into the cluster exactly when it is unprocessed, has a different
keyword text, and either the Jaccard similarity of the word sets exceeds 0.3
or its keyword contains `k`'s main term — where the main term is the longest
word of length at least 3 remaining after stop-word removal (ties broken by
first occurrence), or the first word when no such word remains
(`Part0.findMainTerm`). -/
theorem spec_c1_merge_rule (k : KeywordData) (L : List KeywordData)
    (rel : List KeywordData) (proc : List String)
    (h : (L.map (fun x => x.keyword)).Nodup) :
    (L.foldl (Part0.mergeStep k (Part0.findMainTerm k.keyword)) (rel, proc)).1 =
      rel ++ L.filter (Part0.mergeCond k (Part0.findMainTerm k.keyword) proc) ∧
    ∀ o ∈ L,
      (o ∈ (L.foldl (Part0.mergeStep k (Part0.findMainTerm k.keyword)) (rel, proc)).1 ↔
        o ∈ rel ∨ (o.keyword ∉ proc ∧ o.keyword ≠ k.keyword ∧
          (Part0.calculateKeywordSimilarity k.keyword o.keyword > 3/10 ∨
            strIncludes (lowStr o.keyword) (Part0.findMainTerm k.keyword) = true))) := by
  have hfold := foldMerge_eq k (Part0.findMainTerm k.keyword) L rel proc h
  constructor
  · rw [hfold]
  · intro o ho
    rw [hfold]
    simp only [List.mem_append, List.mem_filter]
    constructor
    · rintro (hrel | ⟨-, hc⟩)
      · exact Or.inl hrel
      · unfold Part0.mergeCond at hc
        simp only [Bool.and_eq_true, Bool.or_eq_true, decide_eq_true_eq] at hc
        exact Or.inr ⟨hc.1.1, hc.1.2, hc.2⟩
    · rintro (hrel | ⟨h1, h2, h3⟩)
      · exact Or.inl hrel
      · refine Or.inr ⟨ho, ?_⟩
        unfold Part0.mergeCond
        simp only [Bool.and_eq_true, Bool.or_eq_true, decide_eq_true_eq]
        exact ⟨⟨h1, h2⟩, h3⟩

/-- C1 witness: the merge-rule characterization applied to the concrete scan
of `kwKart` for the seed `kwGo`. -/
theorem spec_c1_witness :
    (([kwKart].map (fun x => x.keyword)).Nodup) ∧
    ([kwKart].foldl (Part0.mergeStep kwGo (Part0.findMainTerm kwGo.keyword))
        ([kwGo], [])).1 =
      [kwGo] ++ [kwKart].filter
        (Part0.mergeCond kwGo (Part0.findMainTerm kwGo.keyword) []) :=
  ⟨by decide, (spec_c1_merge_rule kwGo [kwKart] [kwGo] [] (by decide)).1⟩

/-- C2 counterexample: with two input records sharing the keyword text
"alpha", the produced clusters contain only the first record, so not every
input record belongs to a cluster. -/
theorem spec_c2_counterexample :
    (Part0.createClusters [kwDupA, kwDupB]).flatMap (fun c => c.keywords) = [kwDupA] ∧
    ¬([kwDupA].Perm [kwDupA, kwDupB]) :=
  ⟨by decide, by decide⟩

/-- C2 (amended): for every input list of keyword records with pairwise
distinct keyword texts, the clusters returned by the `part_000` cluster
builder partition the input (their member lists concatenate to a permutation
of the input), every cluster has exact volume and score totals, arithmetic
mean cpc and difficulty, duplicate-free competitor domains and at least one
member, and the cluster ids are a permutation of 1..n. -/
theorem spec_c2_cluster_invariants (l : List KeywordData)
    (h : (l.map (fun k => k.keyword)).Nodup) :
    ((Part0.createClusters l).flatMap (fun c => c.keywords)).Perm l ∧
    (∀ c ∈ Part0.createClusters l,
      c.total_search_volume = (c.keywords.map (fun k => k.search_volume)).sum ∧
      c.avg_cpc = (c.keywords.map (fun k => k.cpc)).sum / (c.keywords.length : ℚ) ∧
      c.avg_difficulty =
        (c.keywords.map (fun k => k.keyword_difficulty)).sum / (c.keywords.length : ℚ) ∧
      c.total_commercial_score = (c.keywords.map (fun k => k.commercial_score)).sum ∧
      c.competitor_domains.Nodup ∧
      c.keywords ≠ []) ∧
    ((Part0.createClusters l).map (fun c => c.cluster_id)).Perm
      (List.range' 1 (Part0.createClusters l).length) := by
  have hperm : (sortByScore l).Perm l := List.perm_insertionSort recordGe l
  have hall : ((sortByScore l).map (fun k => k.keyword)).Nodup :=
    ((hperm.map (fun k => k.keyword)).nodup_iff).mpr h
  have hcc : Part0.createClusters l =
      sortClusters (Part0.createClustersGo (sortByScore l) (sortByScore l) [] []) := rfl
  have hsort : (sortClusters (Part0.createClustersGo (sortByScore l) (sortByScore l)
      [] [])).Perm (Part0.createClustersGo (sortByScore l) (sortByScore l) [] []) :=
    List.perm_insertionSort clusterGe _
  refine ⟨?_, ?_, ?_⟩
  · have hgo := go_members (sortByScore l) hall (sortByScore l) [] []
      ⟨[], rfl, by simp⟩
    have hfil : (sortByScore l).filter
        (fun x => decide (x.keyword ∉ ([] : List String))) = sortByScore l := by
      rw [List.filter_eq_self]
      intro a _
      simp
    rw [hfil] at hgo
    simp only [List.flatMap_nil, List.nil_append] at hgo
    rw [hcc]
    exact ((hsort.flatMap_right (fun c => c.keywords)).trans hgo).trans hperm
  · intro c hc
    rw [hcc] at hc
    have hmem : c ∈ Part0.createClustersGo (sortByScore l) (sortByScore l) [] [] :=
      hsort.mem_iff.mp hc
    have := go_good (sortByScore l) (sortByScore l) [] []
      (fun c hc => absurd hc (List.not_mem_nil c)) c hmem
    exact this
  · have hids := go_ids (sortByScore l) (sortByScore l) [] [] (by simp)
    rw [hcc]
    refine ((hsort.map (fun c => c.cluster_id)).trans ?_)
    rw [hids, hsort.length_eq]

/-- C2 witness: the cluster invariants applied to a concrete two-record
input with distinct keyword texts. -/
theorem spec_c2_witness :
    (([kwGo, kwKart].map (fun k => k.keyword)).Nodup) ∧
    ((Part0.createClusters [kwGo, kwKart]).flatMap (fun c => c.keywords)).Perm
      [kwGo, kwKart] :=
  ⟨by decide, (spec_c2_cluster_invariants [kwGo, kwKart] (by decide)).1⟩

/-- `x || 0` is the identity on an actual number. -/
theorem JNum.orQ_num_zero (v : ℚ) : (JNum.num v).orQ 0 = v := by
  show (if v = 0 then (0:ℚ) else v) = v
  split_ifs with h
  · exact h.symm
  · rfl

/-- The `index.ts` competition normalization is the identity on an actual
number. -/
theorem Ts.normalizeCompetition_num (q : ℚ) (lvl : String) :
    Ts.normalizeCompetition (JVal.num q) lvl = q := by
  unfold Ts.normalizeCompetition JVal.truthy
  by_cases h : q = 0 <;> simp [h]

/-- A concrete record with no intent keyword and a small volume: the rounded
product is 1, but the scorer returns the floor value 10. -/
def zzzRec : RawRecordTs :=
  RawRecordTs.mk (some "zzz") (JNum.num 1) (JNum.num (1/2)) (JVal.num 0) (some "unknown")

/-- C3 counterexample: the `index.ts` commercial scorer does not return
`round(volume × max(0.1, cpc) × multiplier × (1 + competition))` — at volume
1, cpc 0.5, competition 0, no intent keyword, that rounded product is 1 while
the scorer returns 10 (the floor). -/
theorem spec_c3_counterexample :
    Ts.calculateCommercialScore zzzRec = 10 ∧
    ((jround ((1:ℚ) * max (1/10) (1/2) *
      Ts.intentMultiplierOf (lowStr "zzz") * (1 + 0)) : ℤ) : ℚ) = 1 ∧
    (10 : ℚ) ≠ 1 :=
  ⟨by decide, by decide, by decide⟩

/-- C3 (amended): on numeric fields the `index.ts` commercial scorer returns
`max(10, round(volume × max(0.1, cpc) × multiplier × (1 + competition)))`,
and the intent multiplier is decided by the first matching group in priority
order — buy/purchase/order 2.5, best/top/review 2.0, price/cost/cheap 1.8,
hire/service/company 1.6, "how to"/"what is" 0.8, otherwise 1 — with exactly
one multiplier applied. -/
theorem spec_c3_commercial_score (kw : Option String) (v c q : ℚ)
    (lvl : Option String) :
    (Ts.calculateCommercialScore
        (RawRecordTs.mk kw (JNum.num v) (JNum.num c) (JVal.num q) lvl) =
      max 10 ((jround (v * max (1/10) c *
        Ts.intentMultiplierOf (lowStr (jsOrS kw "")) * (1 + q)) : ℤ) : ℚ)) ∧
    (∀ s : String,
      (strIncludes s "buy" || strIncludes s "purchase" || strIncludes s "order") = true →
      Ts.intentMultiplierOf s = 5/2) ∧
    (∀ s : String,
      (strIncludes s "buy" || strIncludes s "purchase" || strIncludes s "order") = false →
      (strIncludes s "best" || strIncludes s "top" || strIncludes s "review") = true →
      Ts.intentMultiplierOf s = 2) ∧
    (∀ s : String,
      (strIncludes s "buy" || strIncludes s "purchase" || strIncludes s "order") = false →
      (strIncludes s "best" || strIncludes s "top" || strIncludes s "review") = false →
      (strIncludes s "price" || strIncludes s "cost" || strIncludes s "cheap") = true →
      Ts.intentMultiplierOf s = 9/5) ∧
    (∀ s : String,
      (strIncludes s "buy" || strIncludes s "purchase" || strIncludes s "order") = false →
      (strIncludes s "best" || strIncludes s "top" || strIncludes s "review") = false →
      (strIncludes s "price" || strIncludes s "cost" || strIncludes s "cheap") = false →
      (strIncludes s "hire" || strIncludes s "service" || strIncludes s "company") = true →
      Ts.intentMultiplierOf s = 8/5) ∧
    (∀ s : String,
      (strIncludes s "buy" || strIncludes s "purchase" || strIncludes s "order") = false →
      (strIncludes s "best" || strIncludes s "top" || strIncludes s "review") = false →
      (strIncludes s "price" || strIncludes s "cost" || strIncludes s "cheap") = false →
      (strIncludes s "hire" || strIncludes s "service" || strIncludes s "company") = false →
      (strIncludes s "how to" || strIncludes s "what is") = true →
      Ts.intentMultiplierOf s = 4/5) ∧
    (∀ s : String,
      (strIncludes s "buy" || strIncludes s "purchase" || strIncludes s "order") = false →
      (strIncludes s "best" || strIncludes s "top" || strIncludes s "review") = false →
      (strIncludes s "price" || strIncludes s "cost" || strIncludes s "cheap") = false →
      (strIncludes s "hire" || strIncludes s "service" || strIncludes s "company") = false →
      (strIncludes s "how to" || strIncludes s "what is") = false →
      Ts.intentMultiplierOf s = 1) := by
  refine ⟨?_, ?_, ?_, ?_, ?_, ?_, ?_⟩
  · unfold Ts.calculateCommercialScore
    dsimp only
    rw [Ts.normalizeCompetition_num, JNum.orQ_num_zero, JNum.orQ_num_zero]
  · intro s hs
    unfold Ts.intentMultiplierOf
    simp [hs]
  · intro s h1 h2
    unfold Ts.intentMultiplierOf
    simp [h1, h2]
  · intro s h1 h2 h3
    unfold Ts.intentMultiplierOf
    simp [h1, h2, h3]
  · intro s h1 h2 h3 h4
    unfold Ts.intentMultiplierOf
    simp [h1, h2, h3, h4]
  · intro s h1 h2 h3 h4 h5
    unfold Ts.intentMultiplierOf
    simp [h1, h2, h3, h4, h5]
  · intro s h1 h2 h3 h4 h5
    unfold Ts.intentMultiplierOf
    simp [h1, h2, h3, h4, h5]

/-- C3 witness: the amended commercial-score formula at a concrete record,
and the intent multiplier at one concrete keyword per priority tier. -/
theorem spec_c3_witness :
    Ts.calculateCommercialScore
        (RawRecordTs.mk (some "buy widgets") (JNum.num 1000) (JNum.num 2)
          (JVal.num (1/2)) (some "HIGH")) =
      max 10 ((jround ((1000:ℚ) * max (1/10) 2 *
        Ts.intentMultiplierOf (lowStr (jsOrS (some "buy widgets") "")) *
        (1 + 1/2)) : ℤ) : ℚ) ∧
    Ts.intentMultiplierOf "buy shoes" = 5/2 ∧
    Ts.intentMultiplierOf "best shoes" = 2 ∧
    Ts.intentMultiplierOf "shoes price" = 9/5 ∧
    Ts.intentMultiplierOf "hire a plumber" = 8/5 ∧
    Ts.intentMultiplierOf "how to juggle" = 4/5 ∧
    Ts.intentMultiplierOf "zzz" = 1 :=
  ⟨(spec_c3_commercial_score (some "buy widgets") 1000 2 (1/2) (some "HIGH")).1,
   (spec_c3_commercial_score none 0 0 0 none).2.1 "buy shoes" (by decide),
   (spec_c3_commercial_score none 0 0 0 none).2.2.1 "best shoes" (by decide) (by decide),
   (spec_c3_commercial_score none 0 0 0 none).2.2.2.1 "shoes price" (by decide)
     (by decide) (by decide),
   (spec_c3_commercial_score none 0 0 0 none).2.2.2.2.1 "hire a plumber" (by decide)
     (by decide) (by decide) (by decide),
   (spec_c3_commercial_score none 0 0 0 none).2.2.2.2.2.1 "how to juggle" (by decide)
     (by decide) (by decide) (by decide) (by decide),
   (spec_c3_commercial_score none 0 0 0 none).2.2.2.2.2.2 "zzz" (by decide)
     (by decide) (by decide) (by decide) (by decide)⟩

/-- A raw record all of whose metric fields are `NaN`. -/
def nanRec : RawRecord := RawRecord.mk none JNum.nan JNum.nan JNum.nan none

/-- A raw record all of whose metric fields are missing. -/
def undefRec : RawRecord := RawRecord.mk none JNum.undef JNum.undef JNum.undef none

/-- C4: in the `part_000` commercial scorer, a `NaN` volume is replaced by
100, a `NaN` cpc by 0.5, a `NaN` competition by 0.3, a missing cpc by 0.5,
and the returned score is never below 10. -/
theorem spec_c4_commercial_defaults :
    (∀ kd : RawRecord, kd.search_volume = JNum.nan → Part0.volumeOf kd = 100) ∧
    (∀ kd : RawRecord, kd.cpc = JNum.nan → Part0.cpcOf kd = 1/2) ∧
    (∀ kd : RawRecord, kd.competition = JNum.nan → Part0.compOf kd = 3/10) ∧
    (∀ kd : RawRecord, kd.cpc = JNum.undef → Part0.cpcOf kd = 1/2) ∧
    (∀ kd : RawRecord, Part0.calculateCommercialScore kd ≥ 10) := by
  refine ⟨?_, ?_, ?_, ?_, ?_⟩
  · intro kd h
    unfold Part0.volumeOf
    rw [h]
    rfl
  · intro kd h
    unfold Part0.cpcOf
    rw [h]
    rfl
  · intro kd h
    unfold Part0.compOf
    rw [h]
    rfl
  · intro kd h
    unfold Part0.cpcOf
    rw [h]
    rfl
  · intro kd
    unfold Part0.calculateCommercialScore
    dsimp only
    exact le_max_left 10 _

/-- C4 witness: the defaults and the floor at concrete all-`NaN` and
all-missing records. -/
theorem spec_c4_witness :
    Part0.volumeOf nanRec = 100 ∧ Part0.cpcOf nanRec = 1/2 ∧
    Part0.compOf nanRec = 3/10 ∧ Part0.cpcOf undefRec = 1/2 ∧
    Part0.calculateCommercialScore nanRec ≥ 10 :=
  ⟨spec_c4_commercial_defaults.1 nanRec rfl,
   spec_c4_commercial_defaults.2.1 nanRec rfl,
   spec_c4_commercial_defaults.2.2.1 nanRec rfl,
   spec_c4_commercial_defaults.2.2.2.1 undefRec rfl,
   spec_c4_commercial_defaults.2.2.2.2 nanRec⟩

/-- A raw record with unknown competition level and fractional competition,
whose difficulty base 21.6 is not an integer. -/
def unkRec : RawRecord :=
  RawRecord.mk (some "zzz") (JNum.num 500) (JNum.num (1/2)) (JNum.num (27/125))
    (some "unknown")

/-- C5 counterexample: at competition 0.216 with unknown level (base
`max(20, 21.6) = 21.6`, no bonuses), the code rounds before clamping and
returns 22, while the claimed unrounded clamped value is 21.6. -/
theorem spec_c5_counterexample :
    Ts.estimateDifficultyFromMetrics unkRec = 22 ∧
    min 100 (max 15 (max 20 ((27:ℚ)/125 * 100))) = 108/5 ∧
    (22 : ℚ) ≠ 108/5 :=
  ⟨by decide, by decide, by decide⟩

/-- C5 (amended): the `index.ts` metrics difficulty estimate is the level
base (HIGH 70, MEDIUM 45, LOW 25, otherwise `max(20, competition × 100)`)
plus the volume bonus (+15 above 100000, +10 above 10000, +5 above 1000)
plus the cpc bonus (+10 above 5, +5 above 2, +3 above 1), rounded to the
nearest integer and clamped to [15, 100]; in particular a record with
competition level HIGH gets at least 70. -/
theorem spec_c5_metrics_difficulty (kd : RawRecord) :
    (Ts.estimateDifficultyFromMetrics kd =
      min 100 (max 15 ((jround (
        (if upStr (jsOrS kd.competition_level "unknown") = "HIGH" then (70:ℚ)
         else if upStr (jsOrS kd.competition_level "unknown") = "MEDIUM" then 45
         else if upStr (jsOrS kd.competition_level "unknown") = "LOW" then 25
         else max 20 (kd.competition.orQ 0 * 100)) +
        (if kd.search_volume.orQ 0 > 100000 then (15:ℚ)
         else if kd.search_volume.orQ 0 > 10000 then 10
         else if kd.search_volume.orQ 0 > 1000 then 5 else 0) +
        (if kd.cpc.orQ 0 > 5 then (10:ℚ) else if kd.cpc.orQ 0 > 2 then 5
         else if kd.cpc.orQ 0 > 1 then 3 else 0)) : ℤ) : ℚ))) ∧
    (upStr (jsOrS kd.competition_level "unknown") = "HIGH" →
      Ts.estimateDifficultyFromMetrics kd ≥ 70) := by
  constructor
  · rfl
  · intro h
    unfold Ts.estimateDifficultyFromMetrics
    dsimp only
    rw [if_pos h]
    set vB := (if kd.search_volume.orQ 0 > 100000 then (15:ℚ)
      else if kd.search_volume.orQ 0 > 10000 then 10
      else if kd.search_volume.orQ 0 > 1000 then 5 else 0) with hvB
    set cB := (if kd.cpc.orQ 0 > 5 then (10:ℚ) else if kd.cpc.orQ 0 > 2 then 5
      else if kd.cpc.orQ 0 > 1 then 3 else 0) with hcB
    have hv : (0:ℚ) ≤ vB := by
      rw [hvB]
      split_ifs <;> norm_num
    have hc : (0:ℚ) ≤ cB := by
      rw [hcB]
      split_ifs <;> norm_num
    have hj : (70:ℤ) ≤ jround (70 + vB + cB) := by
      unfold jround
      rw [Int.le_floor]
      push_cast
      linarith
    rw [ge_iff_le, le_min_iff]
    refine ⟨by norm_num, ?_⟩
    calc (70:ℚ) ≤ ((jround (70 + vB + cB) : ℤ) : ℚ) := by exact_mod_cast hj
      _ ≤ max 15 ((jround (70 + vB + cB) : ℤ) : ℚ) := le_max_right _ _

/-- C5 witness: the amended difficulty formula and the HIGH lower bound at a
concrete HIGH-competition record. -/
theorem spec_c5_witness :
    upStr (jsOrS (RawRecord.mk (some "zzz") (JNum.num 50000) (JNum.num 3) (JNum.num (1/2))
      (some "high")).competition_level "unknown") = "HIGH" ∧
    Ts.estimateDifficultyFromMetrics
      (RawRecord.mk (some "zzz") (JNum.num 50000) (JNum.num 3) (JNum.num (1/2))
        (some "high")) ≥ 70 :=
  ⟨by decide,
   (spec_c5_metrics_difficulty
     (RawRecord.mk (some "zzz") (JNum.num 50000) (JNum.num 3) (JNum.num (1/2))
       (some "high"))).2 (by decide)⟩

/-- The ranking-page difficulty as a closed-form weighted sum over the
enumerated top-10 pages. -/
theorem calculateDifficulty_eq (rs : List OrganicResult) :
    Part0.calculateDifficulty rs =
      if rs.length = 0 then 0 else
      min 100 ((jround (((rs.take 10).enum.map (fun p =>
        (if Part0.highAuthority.any (fun hd => strIncludes (extractDomain p.2.url) hd)
          then (35:ℚ) else 15) * (((10:ℚ) - (p.1 : ℚ)) / 10))).sum) : ℤ) : ℚ) := by
  unfold Part0.calculateDifficulty
  split_ifs with h
  · rfl
  · dsimp only
    rw [show (fun (d : ℚ) (p : ℕ × OrganicResult) =>
        let domain := extractDomain p.2.url
        let weight : ℚ := ((10 : ℚ) - (p.1 : ℚ)) / 10
        let score : ℚ :=
          if Part0.highAuthority.any (fun hd => strIncludes domain hd) then 35 else 15
        d + score * weight) =
      (fun (d : ℚ) (p : ℕ × OrganicResult) => d +
        (if Part0.highAuthority.any (fun hd => strIncludes (extractDomain p.2.url) hd)
          then (35:ℚ) else 15) * (((10:ℚ) - (p.1 : ℚ)) / 10)) from rfl]
    rw [foldl_add_map_sum (fun p : ℕ × OrganicResult =>
      (if Part0.highAuthority.any (fun hd => strIncludes (extractDomain p.2.url) hd)
        then (35:ℚ) else 15) * (((10:ℚ) - (p.1 : ℚ)) / 10)) ((rs.take 10).enum) 0]
    rw [zero_add]

/-- The ranking-page difficulty is never negative. -/
theorem calculateDifficulty_nonneg (rs : List OrganicResult) :
    0 ≤ Part0.calculateDifficulty rs := by
  rw [calculateDifficulty_eq]
  split_ifs with h
  · exact le_refl 0
  · have hsum : (0:ℚ) ≤ ((rs.take 10).enum.map (fun p =>
        (if Part0.highAuthority.any (fun hd => strIncludes (extractDomain p.2.url) hd)
          then (35:ℚ) else 15) * (((10:ℚ) - (p.1 : ℚ)) / 10))).sum := by
      apply List.sum_nonneg
      intro x hx
      obtain ⟨p, hp, rfl⟩ := List.mem_map.mp hx
      obtain ⟨i, r⟩ := p
      have hi : i < (rs.take 10).length := (List.mem_enum hp).1
      have hi10 : (i : ℚ) ≤ 10 := by
        have := lt_of_lt_of_le hi (List.length_take_le 10 rs)
        exact_mod_cast le_of_lt this
      apply mul_nonneg
      · split_ifs <;> norm_num
      · apply div_nonneg
        · simp only
          linarith
        · norm_num
    have hj : (0:ℤ) ≤ jround (((rs.take 10).enum.map (fun p =>
        (if Part0.highAuthority.any (fun hd => strIncludes (extractDomain p.2.url) hd)
          then (35:ℚ) else 15) * (((10:ℚ) - (p.1 : ℚ)) / 10))).sum) := by
      unfold jround
      rw [Int.le_floor]
      push_cast
      linarith
    apply le_min
    · norm_num
    · exact_mod_cast hj

/-- C6: the ranking-page difficulty examines at most the top 10 pages,
weights position `i` by `(10 - i)/10`, contributes 35 for a high-authority
domain and 15 otherwise, sums, rounds and caps at 100; an empty list yields
0; and the assigned difficulty is the ranking-page score whenever it is
positive, otherwise the metrics estimate. -/
theorem spec_c6_ranking_difficulty :
    (∀ rs : List OrganicResult,
      Part0.calculateDifficulty rs =
        if rs.length = 0 then 0 else
        min 100 ((jround (((rs.take 10).enum.map (fun p =>
          (if Part0.highAuthority.any (fun hd => strIncludes (extractDomain p.2.url) hd)
            then (35:ℚ) else 15) * (((10:ℚ) - (p.1 : ℚ)) / 10))).sum) : ℤ) : ℚ)) ∧
    Part0.calculateDifficulty [] = 0 ∧
    (∀ (rs : List OrganicResult) (kd : KeywordData),
      Part1.assignDifficulty rs kd =
        if Part0.calculateDifficulty rs > 0 then Part0.calculateDifficulty rs
        else Part0.estimateDifficultyFromMetrics kd) := by
  refine ⟨calculateDifficulty_eq, rfl, ?_⟩
  intro rs kd
  unfold Part1.assignDifficulty jsOrQ
  by_cases h : Part0.calculateDifficulty rs = 0
  · rw [if_pos h, if_neg]
    rw [h]
    exact lt_irrefl 0
  · rw [if_neg h, if_pos]
    exact lt_of_le_of_ne (calculateDifficulty_nonneg rs) (Ne.symm h)

/-- C7: the quick-win subset is exactly the clusters below difficulty 40 with
volume above 50, sorted by total commercial score descending, top 5; the
high-value subset is exactly the clusters with score above 1000 and
difficulty below 65, likewise sorted and truncated; both subsets are
contained in the input cluster list, every element satisfies its filter, and
both are sorted descending. -/
theorem spec_c7_opportunity_subsets (url businessType : String)
    (clusters : List KeywordCluster) :
    ((Part0.generateReport url businessType clusters).quickWins =
      (sortClusters (clusters.filter Part0.quickWinFilter)).take 5) ∧
    ((Part0.generateReport url businessType clusters).highValueTargets =
      (sortClusters (clusters.filter Part0.highValueFilter)).take 5) ∧
    (∀ c ∈ (Part0.generateReport url businessType clusters).quickWins,
      c ∈ clusters ∧ c.avg_difficulty < 40 ∧ c.total_search_volume > 50) ∧
    (∀ c ∈ (Part0.generateReport url businessType clusters).highValueTargets,
      c ∈ clusters ∧ c.total_commercial_score > 1000 ∧ c.avg_difficulty < 65) ∧
    ((Part0.generateReport url businessType clusters).quickWins).Sorted clusterGe ∧
    ((Part0.generateReport url businessType clusters).highValueTargets).Sorted
      clusterGe := by
  have hqw : (Part0.generateReport url businessType clusters).quickWins =
      (sortClusters (clusters.filter Part0.quickWinFilter)).take 5 := rfl
  have hhv : (Part0.generateReport url businessType clusters).highValueTargets =
      (sortClusters (clusters.filter Part0.highValueFilter)).take 5 := rfl
  refine ⟨hqw, hhv, ?_, ?_, ?_, ?_⟩
  · intro c hc
    rw [hqw] at hc
    have h1 := List.mem_of_mem_take hc
    unfold sortClusters at h1
    have h2 := (List.mem_insertionSort clusterGe).mp h1
    have h3 := List.mem_filter.mp h2
    have h4 := h3.2
    unfold Part0.quickWinFilter at h4
    simp only [Bool.and_eq_true, decide_eq_true_eq] at h4
    exact ⟨h3.1, h4.1, h4.2⟩
  · intro c hc
    rw [hhv] at hc
    have h1 := List.mem_of_mem_take hc
    unfold sortClusters at h1
    have h2 := (List.mem_insertionSort clusterGe).mp h1
    have h3 := List.mem_filter.mp h2
    have h4 := h3.2
    unfold Part0.highValueFilter at h4
    simp only [Bool.and_eq_true, decide_eq_true_eq] at h4
    exact ⟨h3.1, h4.1, h4.2⟩
  · rw [hqw]
    exact List.Pairwise.sublist (List.take_sublist 5 _)
      (List.sorted_insertionSort clusterGe _)
  · rw [hhv]
    exact List.Pairwise.sublist (List.take_sublist 5 _)
      (List.sorted_insertionSort clusterGe _)

/-- C8: when the input is empty after the volume filter, the pipeline yields
an empty cluster list and a report with all-zero summary metrics, empty
quick-win and high-value subsets, no competitors and no action plan. -/
theorem spec_c8_empty_input (url businessType : String) (records : List KeywordData)
    (h : records.filter (fun kw => decide (kw.search_volume > 20)) = []) :
    Part0.createClusters (records.filter (fun kw => decide (kw.search_volume > 20))) = [] ∧
    (Part1.analyzePipeline url businessType records).summary =
      SummaryNums.mk 0 0 0 0 "N/A" ∧
    (Part1.analyzePipeline url businessType records).quickWins = [] ∧
    (Part1.analyzePipeline url businessType records).highValueTargets = [] ∧
    (Part1.analyzePipeline url businessType records).mainCompetitors = [] ∧
    (Part1.analyzePipeline url businessType records).actionPlan = [] ∧
    (Part1.analyzePipeline url businessType records).rawData = [] := by
  unfold Part1.analyzePipeline
  rw [h]
  exact ⟨rfl, rfl, rfl, rfl, rfl, rfl, rfl⟩

/-- A concrete record whose volume 5 is filtered out by the pipeline. -/
def lowVolRec : KeywordData :=
  KeywordData.mk "tiny" 5 1 0 "LOW" 20 [] 50 true

/-- C8 witness: the empty-after-filtering case at a concrete one-record
input. -/
theorem spec_c8_witness :
    ([lowVolRec].filter (fun kw => decide (kw.search_volume > 20)) = []) ∧
    (Part1.analyzePipeline "https://example.com" "SaaS" [lowVolRec]).quickWins = [] ∧
    (Part1.analyzePipeline "https://example.com" "SaaS" [lowVolRec]).summary =
      SummaryNums.mk 0 0 0 0 "N/A" :=
  ⟨by decide,
   (spec_c8_empty_input "https://example.com" "SaaS" [lowVolRec] (by decide)).2.2.1,
   (spec_c8_empty_input "https://example.com" "SaaS" [lowVolRec] (by decide)).2.1⟩

/-- C9: the records-to-report transformation is deterministic — the pipeline
is a pure function, and even the in-place score sort that `createClusters`
performs on its input array does not change the result of a repeated run,
because sorting an already-sorted array is the identity. -/
theorem spec_c9_determinism (url businessType : String) (records : List KeywordData) :
    Part1.analyzePipeline url businessType records =
      Part1.analyzePipeline url businessType records ∧
    Part0.createClusters (sortByScore records) = Part0.createClusters records := by
  refine ⟨rfl, ?_⟩
  unfold Part0.createClusters
  have hs : sortByScore (sortByScore records) = sortByScore records := by
    unfold sortByScore
    exact List.Sorted.insertionSort_eq (List.sorted_insertionSort recordGe records)
  rw [hs]

/-- The inner merge scan of the `index.ts` cluster builder never grows a
cluster beyond 10 members. -/
theorem ts_fold_bound (k : KeywordData) (mw : List String) :
    ∀ (L : List KeywordData) (st : KeywordCluster × List String),
      st.1.keywords.length ≤ 10 →
      ((L.foldl (Ts.clusterStep k mw) st).1).keywords.length ≤ 10
  | [], _, h => h
  | o :: L, st, h => by
    simp only [List.foldl_cons]
    apply ts_fold_bound k mw L
    unfold Ts.clusterStep
    by_cases h1 : o.keyword ∈ st.2 ∨ o.keyword = k.keyword
    · rw [if_pos h1]
      exact h
    · rw [if_neg h1]
      dsimp only
      split_ifs with h2
      · obtain ⟨-, h2b⟩ := h2
        simp only [Ts.mergeInto, List.length_append, List.length_cons, List.length_nil]
        exact h2b
      · exact h

/-- The outer loop of the `index.ts` cluster builder keeps every accumulated
cluster at 10 members or fewer. -/
theorem ts_go_bound (all : List KeywordData) :
    ∀ (pending : List KeywordData) (proc : List String) (acc : List KeywordCluster),
      (∀ c ∈ acc, c.keywords.length ≤ 10) →
      ∀ c ∈ Ts.createClustersGo all pending proc acc, c.keywords.length ≤ 10
  | [], _, acc, hacc => hacc
  | k :: rest, proc, acc, hacc => by
    by_cases hk : k.keyword ∈ proc
    · rw [Ts.createClustersGo, if_pos hk]
      exact ts_go_bound all rest proc acc hacc
    · rw [Ts.createClustersGo, if_neg hk]
      dsimp only
      apply ts_go_bound all rest
      intro c hc
      rcases List.mem_append.mp hc with hc | hc
      · exact hacc c hc
      · rcases List.mem_singleton.mp hc with rfl
        apply ts_fold_bound
        simp [Ts.initCluster]

/-- C10: the `index.ts` `createClusters` returns at most 15 clusters, and
every returned cluster holds at most 10 member keywords. -/
theorem spec_c10_ts_cluster_caps (keywords : List KeywordData) :
    (Ts.createClusters keywords).length ≤ 15 ∧
    ∀ c ∈ Ts.createClusters keywords, c.keywords.length ≤ 10 := by
  constructor
  · exact List.length_take_le 15 _
  · intro c hc
    unfold Ts.createClusters at hc
    have h1 := List.mem_of_mem_take hc
    unfold sortClusters at h1
    have h2 := (List.mem_insertionSort clusterGe).mp h1
    exact ts_go_bound (sortByScore keywords) (sortByScore keywords) [] []
      (fun c hc => absurd hc (List.not_mem_nil c)) c h2
